import Mathlib

/-!
Verification of `helmfile-next-version`, a Go tool that reports which
helmfile releases have a newer chart version available.

The repository ships two near-duplicate drafts of the same program:
`main.go` (built by the Makefile) and an unnamed variant draft.  They share
the data model and the lookup/engine structure and differ in error
handling: `main.go` panics on a version-parse failure and on a lookup
failure inside the fan-out, while the variant draft logs and degrades
per release, accumulating lookup errors in a shared `err` variable.
Both behaviors are embedded below where they differ.

External collaborators (the `helm` CLI and the Masterminds semver
library) are not part of the repository source; the semver parser and
ordering are modelled from the spec, and the `helm search repo` call is
an oracle parameter.
-/

/-- Mirror of the Go struct `Release`: one manifest entry with a name, a
chart reference, a pinned version string and an optional installed flag
(`nil` in Go is `none` here). -/
structure Release where
  Name : String
  Chart : String
  Version : String
  Installed : Option Bool
deriving Repr, DecidableEq

/-- Mirror of the Go struct `HelmChartInfo` decoded from the YAML output of
`helm search repo`: chart name, version, optional installed flag. -/
structure HelmChartInfo where
  Name : String
  Version : String
  Installed : Option Bool
deriving Repr, DecidableEq

/-- Mirror of the Go struct `Helmfile`: the ordered release list of the
manifest. -/
structure Helmfile where
  Releases : List Release
deriving Repr, DecidableEq

/-- Mirror of the Go struct `ReleaseComparer`: the current (manifest)
release paired with the latest view built from the registry lookup. -/
structure ReleaseComparer where
  Current : Release
  Latest : Release
deriving Repr, DecidableEq

/-- Go `strings.TrimPrefix(s, "v")` on the character list: strips one
leading `v` marker if present, otherwise leaves the string unchanged. -/
def trimVList : List Char → List Char
  | 'v' :: rest => rest
  | cs => cs

/-- ASCII digit test, as used by semver identifiers. -/
def isDigitChar (c : Char) : Bool := '0' ≤ c && c ≤ '9'

/-- Characters allowed in semver pre-release/build identifiers:
`[0-9A-Za-z-]`. -/
def isIdentChar (c : Char) : Bool :=
  isDigitChar c || ('a' ≤ c && c ≤ 'z') || ('A' ≤ c && c ≤ 'Z') || c = '-'

/-- Split a character list on a separator character; like Go
`strings.Split`, an empty input yields one empty group. -/
def splitOnChar (sep : Char) (cs : List Char) : List (List Char) :=
  cs.foldr
    (fun c acc =>
      if c = sep then [] :: acc
      else
        match acc with
        | [] => [[c]]
        | g :: gs => (c :: g) :: gs)
    [[]]

/-- Numeric value of a digit list (most significant first). -/
def digitsToNat (cs : List Char) : Nat :=
  cs.foldl (fun n c => n * 10 + (c.toNat - '0'.toNat)) 0

/-- Modelled from the spec: a parsed semantic version
(`major.minor.patch` with optional pre-release and build metadata), the
result type of the external Masterminds semver library's `NewVersion`,
whose source is not part of this repository. -/
structure Semver where
  major : Nat
  minor : Nat
  patch : Nat
  pre : List String
  build : List String
deriving Repr, DecidableEq

/-- A numeric core component: nonempty, all digits, no leading zeros
(standard semver). -/
def parseNumeric (cs : List Char) : Option Nat :=
  if cs ≠ [] && cs.all isDigitChar &&
      (cs.length = 1 || cs.headD 'x' ≠ '0') then
    some (digitsToNat cs)
  else none

/-- A valid pre-release identifier: nonempty, `[0-9A-Za-z-]`, and if it
is all digits it has no leading zero (standard semver). -/
def validPreIdent (cs : List Char) : Bool :=
  cs ≠ [] && cs.all isIdentChar &&
    (!cs.all isDigitChar || cs.length = 1 || cs.headD 'x' ≠ '0')

/-- A valid build-metadata identifier: nonempty, `[0-9A-Za-z-]` (leading
zeros allowed). -/
def validBuildIdent (cs : List Char) : Bool :=
  cs ≠ [] && cs.all isIdentChar

/-- Modelled from the spec: parsing a version string as a standard
semantic version — `major.minor.patch` core, optional `-pre` (dot
separated identifiers, first `-` starts it) and optional `+build`
(first `+` starts it).  This stands in for the external semver
library's parse, absent from the repository source. -/
def parseSemverList (cs : List Char) : Option Semver :=
  let core := cs.takeWhile (fun c => c ≠ '+')
  let buildRest := cs.dropWhile (fun c => c ≠ '+')
  let vpart := core.takeWhile (fun c => c ≠ '-')
  let preRest := core.dropWhile (fun c => c ≠ '-')
  match splitOnChar '.' vpart with
  | [ma, mi, pa] =>
    match parseNumeric ma, parseNumeric mi, parseNumeric pa with
    | some major, some minor, some patch =>
      let preIds :=
        match preRest with
        | [] => some ([] : List String)
        | _ :: p =>
          let segs := splitOnChar '.' p
          if segs.all validPreIdent then some (segs.map List.asString)
          else none
      let buildIds :=
        match buildRest with
        | [] => some ([] : List String)
        | _ :: b =>
          let segs := splitOnChar '.' b
          if segs.all validBuildIdent then some (segs.map List.asString)
          else none
      match preIds, buildIds with
      | some pre, some build => some ⟨major, minor, patch, pre, build⟩
      | _, _ => none
    | _, _, _ => none
  | _ => none

/-- Parse a version string as a semantic version. -/
def parseSemver (s : String) : Option Semver := parseSemverList s.data

/-- Strict lexicographic order on character lists (ASCII order on the
identifiers that semver admits). -/
def charListLt : List Char → List Char → Bool
  | [], [] => false
  | [], _ :: _ => true
  | _ :: _, [] => false
  | a :: as, b :: bs =>
    if a < b then true else if b < a then false else charListLt as bs

/-- Modelled from the spec: precedence of two pre-release identifiers
under standard semver — numeric identifiers compare numerically, a
numeric identifier is lower than an alphanumeric one, alphanumeric
identifiers compare in ASCII order. -/
def identLt (a b : String) : Bool :=
  match a.data.all isDigitChar, b.data.all isDigitChar with
  | true, true => digitsToNat a.data < digitsToNat b.data
  | true, false => true
  | false, true => false
  | false, false => charListLt a.data b.data

/-- Modelled from the spec: precedence of two pre-release identifier
lists under standard semver — identifier by identifier, a shorter list
that is a prefix of the longer one is lower. -/
def preListLt : List String → List String → Bool
  | [], [] => false
  | [], _ :: _ => true
  | _ :: _, [] => false
  | a :: as, b :: bs => if a = b then preListLt as bs else identLt a b

/-- Modelled from the spec: the standard semver total order — major,
then minor, then patch, then pre-release precedence (a version with a
pre-release is lower than the same core without one); build metadata is
ignored.  This stands in for the external semver library's `LessThan`,
absent from the repository source. -/
def semverLt (a b : Semver) : Bool :=
  if a.major ≠ b.major then a.major < b.major
  else if a.minor ≠ b.minor then a.minor < b.minor
  else if a.patch ≠ b.patch then a.patch < b.patch
  else
    match a.pre, b.pre with
    | [], _ => false
    | _ :: _, [] => true
    | _ :: _, _ :: _ => preListLt a.pre b.pre

/-- The body of the graceful variant draft's
`ReleaseComparer.HasUpdate` after the local trimmed strings are bound:
return `false` when the stripped strings are equal, return `false`
(after logging) when either side fails to parse, otherwise the semver
less-than test. -/
def hasNewerTrimmed (c l : List Char) : Bool :=
  if c = l then false
  else
    match parseSemverList c with
    | none => false
    | some cv =>
      match parseSemverList l with
      | none => false
      | some lv => semverLt cv lv

/-- The graceful variant draft's `ReleaseComparer.HasUpdate` on the two
version strings: strip one leading `v` from each side, then compare. -/
def hasNewer (current latest : String) : Bool :=
  hasNewerTrimmed (trimVList current.data) (trimVList latest.data)

/-- The graceful variant draft's `ReleaseComparer.HasUpdate` method: compares the
current and latest version strings; the release name is used only in
log messages and does not influence the result. -/
def hasUpdateRC (rc : ReleaseComparer) : Bool :=
  hasNewer rc.Current.Version rc.Latest.Version

/-- Shipped `main.go` variant of `ReleaseComparer.HasUpdate`: identical to the graceful
variant except that a parse failure panics (modelled as `Except.error`
carrying the panic message), aborting the whole run. -/
def hasUpdateMainRC (rc : ReleaseComparer) : Except String Bool :=
  let c := trimVList rc.Current.Version.data
  let l := trimVList rc.Latest.Version.data
  if c = l then .ok false
  else
    match parseSemverList c with
    | none =>
      .error ("failed to parse current version " ++ rc.Current.Name ++ " "
        ++ (⟨c⟩ : String) ++ ": invalid semantic version")
    | some cv =>
      match parseSemverList l with
      | none =>
        .error ("failed to parse latest version " ++ rc.Current.Name ++ " "
          ++ (⟨l⟩ : String) ++ ": invalid semantic version")
      | some lv => .ok (semverLt cv lv)

/-- Go `strings.HasPrefix` on character lists. -/
def listStartsWith : List Char → List Char → Bool
  | _, [] => true
  | [], _ :: _ => false
  | c :: cs, p :: ps => c = p && listStartsWith cs ps

/-- The local-path test of `GetReleaseComparer`: the chart reference
begins with `/`, `./` or `../`. -/
def isLocalChart (chart : String) : Bool :=
  listStartsWith chart.data ['/'] || listStartsWith chart.data ['.', '/'] ||
    listStartsWith chart.data ['.', '.', '/']

/-- The defaulting prologue of `GetReleaseComparer`: the call's own copy
of the release gets `Installed = true` when the flag is unset.  Go
passes `release` by value, so this never touches the stored
declaration. -/
def defaultInstalled (release : Release) : Release :=
  if release.Installed = none then { release with Installed := some true }
  else release

/-- Body of `UpdateManager.GetReleaseComparer`.  The external
`helm search repo <chart> --output yaml` call together with the YAML
decode is the oracle `search` (its `Except.error` covers both a failing
process and an undecodable response); everything else — the installed
defaulting, the local-path short-circuit, the empty-result check and
the construction of the latest view — is the repository's own code. -/
def getReleaseComparerDefaulted
    (search : String → Except String (List HelmChartInfo))
    (release : Release) : Except String ReleaseComparer :=
  if isLocalChart release.Chart then
    .ok ⟨release, release⟩
  else
    match search release.Chart with
    | .error e =>
      .error ("failed to search for chart " ++ release.Chart ++ ": " ++ e)
    | .ok chart =>
      match chart with
      | [] => .error ("chart " ++ release.Chart ++ " not found")
      | c0 :: _ =>
        .ok ⟨release, ⟨release.Name, c0.Name, c0.Version, c0.Installed⟩⟩

/-- The whole of `GetReleaseComparer`: Go reassigns its by-value
`release` parameter with the defaulted copy before the body runs, split
here into `defaultInstalled` followed by the body. -/
def getReleaseComparer (search : String → Except String (List HelmChartInfo))
    (release : Release) : Except String ReleaseComparer :=
  getReleaseComparerDefaulted search (defaultInstalled release)

/-- The slot a finished lookup task leaves at its own index: the
comparer on success, `nil` on failure. -/
def lookupSlot (search : String → Except String (List HelmChartInfo))
    (release : Release) : Option ReleaseComparer :=
  match getReleaseComparer search release with
  | .ok c => some c
  | .error _ => none

/-- Go `errors.Join` on two message strings. -/
def errJoin (a b : String) : String := a ++ "\n" ++ b

/-- The wrapping error built inside the variant draft's
`CheckForUpdates` goroutine. -/
def errWrap (name e : String) : String :=
  "failed to get release comparer for release " ++ name ++ ": " ++ e

/-- One completed goroutine body of the variant draft's
`CheckForUpdates`, run for the release at index `i`: the result (or
`nil`) is written into the task's own pre-sized slot, and the shared
`err` variable is assigned the call's error — `nil` on success (the
multi-assignment `comparer, err = um.GetReleaseComparer(release)`
overwrites whatever was accumulated), or on failure the join of the
fresh error with its wrapper. -/
def checkTask (search : String → Except String (List HelmChartInfo))
    (releases : List Release)
    (st : List (Option ReleaseComparer) × Option String) (i : Nat) :
    List (Option ReleaseComparer) × Option String :=
  match releases[i]? with
  | none => st
  | some r =>
    match getReleaseComparer search r with
    | .ok c => (st.1.set i (some c), none)
    | .error e => (st.1.set i none, some (errJoin e (errWrap r.Name e)))

/-- The variant draft's `CheckForUpdates` under an explicit completion
schedule: the result slice is pre-sized to the release count, the
goroutines complete atomically in the order given by `order` (each
writing only its own index), and the final shared `err` is returned
alongside the slots. -/
def checkForUpdatesSched (search : String → Except String (List HelmChartInfo))
    (releases : List Release) (order : List Nat) :
    List (Option ReleaseComparer) × Option String :=
  order.foldl (checkTask search releases)
    (List.replicate releases.length none, none)

/-- The variant draft's `CheckForUpdates` under the in-order schedule
(one valid interleaving of the goroutines). -/
def checkForUpdates (search : String → Except String (List HelmChartInfo))
    (releases : List Release) :
    List (Option ReleaseComparer) × Option String :=
  checkForUpdatesSched search releases (List.range releases.length)

/-- State of the Go `UpdateManager`: the loaded helmfile and the comparison
slots (a `nil` slot is a gap left by a failed lookup). -/
structure UpdateManager where
  Helmfile : Helmfile
  Comparisons : List (Option ReleaseComparer)
deriving Repr, DecidableEq

/-- Go `UpdateManager.CheckForUpdates` as a state transformer: stores the
slots on the manager and returns the aggregate error; the helmfile
itself is only read. -/
def umCheckForUpdates (search : String → Except String (List HelmChartInfo))
    (um : UpdateManager) : UpdateManager × Option String :=
  let r := checkForUpdates search um.Helmfile.Releases
  ({ um with Comparisons := r.1 }, r.2)

/-- Go `UpdateManager.HasUpdates` as written: iterate the comparison
slice, calling `HasUpdate` on each entry.  A `nil` entry is dereferenced
by the method call and panics (modelled as `none`); otherwise the loop
returns `true` at the first entry with an update and `false` past the
end. -/
def hasUpdatesGo : List (Option ReleaseComparer) → Option Bool
  | [] => some false
  | none :: _ => none
  | some c :: rest => if hasUpdateRC c then some true else hasUpdatesGo rest

/-! Helper lemmas shared by the claim theorems. -/

theorem defaultInstalled_Chart (r : Release) :
    (defaultInstalled r).Chart = r.Chart := by
  unfold defaultInstalled
  split <;> rfl

theorem defaultInstalled_Name (r : Release) :
    (defaultInstalled r).Name = r.Name := by
  unfold defaultInstalled
  split <;> rfl

theorem defaultInstalled_of_none (r : Release) (h : r.Installed = none) :
    (defaultInstalled r).Installed = some true := by
  unfold defaultInstalled
  rw [if_pos h]

theorem hasNewer_trim_eq (a b : String)
    (h : trimVList a.data = trimVList b.data) : hasNewer a b = false := by
  unfold hasNewer hasNewerTrimmed
  rw [if_pos h]

theorem getReleaseComparer_ok_shape
    (search : String → Except String (List HelmChartInfo)) (r : Release)
    (rc : ReleaseComparer) (h : getReleaseComparer search r = .ok rc) :
    rc.Current = defaultInstalled r ∧
      rc.Latest.Name = (defaultInstalled r).Name := by
  unfold getReleaseComparer getReleaseComparerDefaulted at h
  by_cases hl : isLocalChart (defaultInstalled r).Chart = true
  · rw [if_pos hl] at h
    cases h
    exact ⟨rfl, rfl⟩
  · rw [if_neg hl] at h
    cases hs : search (defaultInstalled r).Chart with
    | error e => rw [hs] at h; cases h
    | ok chart =>
      rw [hs] at h
      cases chart with
      | nil => cases h
      | cons c0 rest => cases h; exact ⟨rfl, rfl⟩

/-- C4: a release whose chart reference begins with a local-path marker
is answered immediately with latest equal to current — the result does
not depend on the search oracle at all — and such a comparer never
reports an update, whatever the declared version string. -/
theorem spec_c4_local_chart_short_circuit
    (g g2 : String → Except String (List HelmChartInfo)) (r : Release)
    (hloc : isLocalChart r.Chart = true) :
    getReleaseComparer g r = getReleaseComparer g2 r ∧
      getReleaseComparer g r = .ok ⟨defaultInstalled r, defaultInstalled r⟩ ∧
      hasUpdateRC ⟨defaultInstalled r, defaultInstalled r⟩ = false := by
  have hloc2 : isLocalChart (defaultInstalled r).Chart = true := by
    rw [defaultInstalled_Chart]; exact hloc
  refine ⟨?_, ?_, ?_⟩
  · unfold getReleaseComparer getReleaseComparerDefaulted
    rw [if_pos hloc2, if_pos hloc2]
  · unfold getReleaseComparer getReleaseComparerDefaulted
    rw [if_pos hloc2]
  · exact hasNewer_trim_eq _ _ rfl

/-- C4 witness: a concrete local-path release with a non-semver version
is returned unchanged with no oracle involvement and no update. -/
theorem spec_c4_local_chart_short_circuit_witness :
    isLocalChart "./local/chart" = true ∧
      (getReleaseComparer (fun _ => .error "oracle called")
          ⟨"b", "./local/chart", "2.0.0", none⟩ =
        getReleaseComparer (fun _ => .ok [⟨"x", "9.9.9", none⟩])
          ⟨"b", "./local/chart", "2.0.0", none⟩ ∧
      getReleaseComparer (fun _ => .error "oracle called")
          ⟨"b", "./local/chart", "2.0.0", none⟩ =
        .ok ⟨defaultInstalled ⟨"b", "./local/chart", "2.0.0", none⟩,
          defaultInstalled ⟨"b", "./local/chart", "2.0.0", none⟩⟩ ∧
      hasUpdateRC ⟨defaultInstalled ⟨"b", "./local/chart", "2.0.0", none⟩,
          defaultInstalled ⟨"b", "./local/chart", "2.0.0", none⟩⟩ = false) :=
  ⟨by decide,
    spec_c4_local_chart_short_circuit _ _
      ⟨"b", "./local/chart", "2.0.0", none⟩ (by decide)⟩

/-- C5: the comparator strips one leading v marker from each side and
answers false whenever the stripped strings are textually identical —
no semantic parsing happens, so non-semver identifiers compare equal to
themselves; reflexivity is the instance with both sides the same
string. -/
theorem spec_c5_trim_equal_no_update (a b : String)
    (h : trimVList a.data = trimVList b.data) : hasNewer a b = false :=
  hasNewer_trim_eq a b h

/-- C5 witness: the non-semver identifier main compared with itself. -/
theorem spec_c5_trim_equal_no_update_witness :
    trimVList "main".data = trimVList "main".data ∧
      hasNewer "main" "main" = false :=
  ⟨rfl, spec_c5_trim_equal_no_update "main" "main" rfl⟩

/-- C8: every comparer a lookup successfully produces — over the
local-path branch and the registry branch alike — preserves the
release's logical name: current and latest carry the same name. -/
theorem spec_c8_name_invariant
    (search : String → Except String (List HelmChartInfo)) (r : Release)
    (rc : ReleaseComparer) (h : getReleaseComparer search r = .ok rc) :
    rc.Current.Name = rc.Latest.Name := by
  obtain ⟨hc, hn⟩ := getReleaseComparer_ok_shape search r rc h
  rw [hc, hn]

/-- C8 witness: a registry-branch lookup whose chart record carries a
different chart name still preserves the release name on both sides. -/
theorem spec_c8_name_invariant_witness :
    getReleaseComparer (fun _ => .ok [⟨"chartname", "9.9.9", none⟩])
        ⟨"app", "repo/app", "1.0.0", none⟩ =
      .ok ⟨⟨"app", "repo/app", "1.0.0", some true⟩,
        ⟨"app", "chartname", "9.9.9", none⟩⟩ ∧
      (⟨⟨"app", "repo/app", "1.0.0", some true⟩,
        ⟨"app", "chartname", "9.9.9", none⟩⟩ :
          ReleaseComparer).Current.Name =
      (⟨⟨"app", "repo/app", "1.0.0", some true⟩,
        ⟨"app", "chartname", "9.9.9", none⟩⟩ :
          ReleaseComparer).Latest.Name :=
  ⟨rfl,
    spec_c8_name_invariant (fun _ => .ok [⟨"chartname", "9.9.9", none⟩])
      ⟨"app", "repo/app", "1.0.0", none⟩ _ rfl⟩

/-- C9: the unset installed flag is defaulted to true only on the
lookup call's own by-value copy of the declaration: running the whole
engine leaves the stored helmfile untouched, while every successful
lookup of a declaration with an unset flag observes the defaulted copy
as its current view. -/
theorem spec_c9_defaulting_frame
    (search : String → Except String (List HelmChartInfo))
    (um : UpdateManager) :
    (umCheckForUpdates search um).1.Helmfile = um.Helmfile ∧
      ∀ r rc, r.Installed = none → getReleaseComparer search r = .ok rc →
        rc.Current.Installed = some true := by
  refine ⟨rfl, fun r rc hr h => ?_⟩
  obtain ⟨hc, _⟩ := getReleaseComparer_ok_shape search r rc h
  rw [hc]
  exact defaultInstalled_of_none r hr

/-- C9 witness: one release with an unset flag — the helmfile the
manager stores is unchanged by the run, and the produced comparer's
current view carries the defaulted flag. -/
theorem spec_c9_defaulting_frame_witness :
    (umCheckForUpdates (fun _ => .ok [⟨"a", "1.1.0", none⟩])
        ⟨⟨[⟨"a", "repo/a", "1.0.0", none⟩]⟩, []⟩).1.Helmfile =
      (⟨⟨[⟨"a", "repo/a", "1.0.0", none⟩]⟩, []⟩ : UpdateManager).Helmfile ∧
      (⟨"a", "repo/a", "1.0.0", none⟩ : Release).Installed = none ∧
      (⟨⟨"a", "repo/a", "1.0.0", some true⟩,
          ⟨"a", "a", "1.1.0", none⟩⟩ : ReleaseComparer).Current.Installed =
        some true :=
  ⟨(spec_c9_defaulting_frame (fun _ => .ok [⟨"a", "1.1.0", none⟩])
      ⟨⟨[⟨"a", "repo/a", "1.0.0", none⟩]⟩, []⟩).1,
    rfl,
    (spec_c9_defaulting_frame (fun _ => .ok [⟨"a", "1.1.0", none⟩])
      ⟨⟨[⟨"a", "repo/a", "1.0.0", none⟩]⟩, []⟩).2
      ⟨"a", "repo/a", "1.0.0", none⟩
      ⟨⟨"a", "repo/a", "1.0.0", some true⟩, ⟨"a", "a", "1.1.0", none⟩⟩
      rfl rfl⟩

/-- C10: the update decision is a function of the two version strings
alone — two comparers whose current and latest versions agree produce
the same boolean, whatever their names, chart references or installed
flags. -/
theorem spec_c10_versions_only (rc1 rc2 : ReleaseComparer)
    (h1 : rc1.Current.Version = rc2.Current.Version)
    (h2 : rc1.Latest.Version = rc2.Latest.Version) :
    hasUpdateRC rc1 = hasUpdateRC rc2 := by
  unfold hasUpdateRC
  rw [h1, h2]

/-- C10 witness: two comparers equal only in their version strings get
the same verdict. -/
theorem spec_c10_versions_only_witness :
    (⟨⟨"a", "repo/a", "1.0.0", none⟩, ⟨"a", "a", "1.1.0", none⟩⟩ :
        ReleaseComparer).Current.Version =
      (⟨⟨"b", "./b", "1.0.0", some false⟩, ⟨"c", "c", "1.1.0", some true⟩⟩ :
        ReleaseComparer).Current.Version ∧
      hasUpdateRC ⟨⟨"a", "repo/a", "1.0.0", none⟩, ⟨"a", "a", "1.1.0", none⟩⟩ =
        hasUpdateRC
          ⟨⟨"b", "./b", "1.0.0", some false⟩, ⟨"c", "c", "1.1.0", some true⟩⟩ :=
  ⟨rfl,
    spec_c10_versions_only
      ⟨⟨"a", "repo/a", "1.0.0", none⟩, ⟨"a", "a", "1.1.0", none⟩⟩
      ⟨⟨"b", "./b", "1.0.0", some false⟩, ⟨"c", "c", "1.1.0", some true⟩⟩
      rfl rfl⟩

/-- C1: the claim requires the comparator to degrade to false on a
version-parse failure without aborting the run.  The variant draft does
exactly that, but the comparator the Makefile builds (main.go) panics
instead, aborting the whole run on the first malformed version: at the
concrete failing pair the shipped comparator produces the panic error
while the graceful variant returns false. -/
theorem spec_c1_parse_failure_panics :
    hasUpdateMainRC
        ⟨⟨"app", "repo/app", "not-a-version", none⟩,
          ⟨"app", "app", "1.0.0", none⟩⟩ =
      .error
        "failed to parse current version app not-a-version: invalid semantic version" ∧
      hasUpdateRC
        ⟨⟨"app", "repo/app", "not-a-version", none⟩,
          ⟨"app", "app", "1.0.0", none⟩⟩ = false := by
  exact ⟨rfl, rfl⟩

/-- C7: the claim requires gap (nil) entries to be excluded without
crashing; the Go loop calls HasUpdate on every entry, so a nil entry is
dereferenced and panics (modelled as none), while gap-free sets behave
as claimed: empty and all-up-to-date sets give false, a set with an
outdated entry gives true. -/
theorem spec_c7_nil_gap_crashes :
    hasUpdatesGo [none] = none ∧
      hasUpdatesGo [] = some false ∧
      hasUpdatesGo
          [some ⟨⟨"a", "r/a", "1.0.0", some true⟩, ⟨"a", "a", "1.1.0", none⟩⟩] =
        some true ∧
      hasUpdatesGo
          [some ⟨⟨"a", "r/a", "1.0.0", some true⟩, ⟨"a", "a", "1.0.0", none⟩⟩] =
        some false ∧
      hasUpdatesGo
          [some ⟨⟨"a", "r/a", "1.0.0", some true⟩, ⟨"a", "a", "1.1.0", none⟩⟩,
            none] =
        some true := by
  refine ⟨rfl, rfl, by decide, by decide, by decide⟩

/-- C6: when the stripped sides differ and both parse as semantic
versions, the comparator decides exactly the standard semver strict
order (major, then minor, then patch, then pre-release precedence;
build metadata never influences the verdict), witnessed also on the
spec's concrete pairs. -/
theorem spec_c6_semver_order (c l : String) (cv lv : Semver)
    (hne : trimVList c.data ≠ trimVList l.data)
    (hc : parseSemverList (trimVList c.data) = some cv)
    (hl : parseSemverList (trimVList l.data) = some lv) :
    hasNewer c l = semverLt cv lv ∧
      hasNewer "v1.2.0" "1.3.0" = true ∧
      hasNewer "1.3.0" "v1.2.0" = false ∧
      hasNewer "1.2.0+abc" "1.2.0+xyz" = false := by
  refine ⟨?_, by decide, by decide, by decide⟩
  unfold hasNewer hasNewerTrimmed
  rw [if_neg hne]
  simp only [hc, hl]

/-- C6 witness: a concrete differing, parsing pair. -/
theorem spec_c6_semver_order_witness :
    trimVList "1.0.0".data ≠ trimVList "2.0.0".data ∧
      parseSemverList (trimVList "1.0.0".data) = some ⟨1, 0, 0, [], []⟩ ∧
      parseSemverList (trimVList "2.0.0".data) = some ⟨2, 0, 0, [], []⟩ ∧
      hasNewer "1.0.0" "2.0.0" = semverLt ⟨1, 0, 0, [], []⟩ ⟨2, 0, 0, [], []⟩ :=
  ⟨by decide, by decide, by decide,
    (spec_c6_semver_order "1.0.0" "2.0.0" ⟨1, 0, 0, [], []⟩ ⟨2, 0, 0, [], []⟩
      (by decide) (by decide) (by decide)).1⟩

/-- C2: the claim requires every per-release lookup failure to be
folded into one aggregate error that is surfaced alongside the partial
comparison set.  The variant draft instead routes every lookup result
through one shared err variable: a success assigns nil to it, erasing
earlier failures, and a failure overwrites it with only its own joined
error.  Evaluated at two concrete runs under the in-order schedule:
with a failure at index 0 followed by a success at index 1 the run
returns the gap and the success but a nil aggregate error, and with two
failures only the second failure's error survives. -/
theorem spec_c2_aggregate_error_swallowed :
    checkForUpdates
        (fun c => if c = "bad/chart" then .error "boom"
          else .ok [⟨"app", "2.0.0", none⟩])
        [⟨"bad", "bad/chart", "1.0.0", none⟩,
          ⟨"app", "repo/app", "1.0.0", none⟩] =
      ([none, some ⟨⟨"app", "repo/app", "1.0.0", some true⟩,
          ⟨"app", "app", "2.0.0", none⟩⟩], none) ∧
      checkForUpdates (fun _ => .error "boom")
          [⟨"r0", "c0", "1.0.0", none⟩, ⟨"r1", "c1", "1.0.0", none⟩] =
        ([none, none],
          some (errJoin "failed to search for chart c1: boom"
            (errWrap "r1" "failed to search for chart c1: boom"))) :=
  ⟨rfl, rfl⟩

theorem checkTask_fst_length
    (search : String → Except String (List HelmChartInfo))
    (releases : List Release)
    (st : List (Option ReleaseComparer) × Option String) (i : Nat) :
    (checkTask search releases st i).1.length = st.1.length := by
  unfold checkTask
  cases hq : releases[i]? with
  | none => rfl
  | some r =>
    dsimp only
    cases hg : getReleaseComparer search r with
    | ok c => simp
    | error e => simp

theorem checkSched_fst_getElem
    (search : String → Except String (List HelmChartInfo))
    (releases : List Release) (order : List Nat) :
    ∀ (st : List (Option ReleaseComparer) × Option String),
      st.1.length = releases.length → ∀ j : Nat,
      (order.foldl (checkTask search releases) st).1[j]? =
        if j ∈ order ∧ j < releases.length
        then (releases.map (lookupSlot search))[j]?
        else st.1[j]? := by
  induction order with
  | nil =>
    intro st _ j
    simp
  | cons i rest ih =>
    intro st hlen j
    rw [List.foldl_cons,
      ih (checkTask search releases st i)
        (by rw [checkTask_fst_length]; exact hlen) j]
    by_cases hjr : j ∈ rest ∧ j < releases.length
    · rw [if_pos hjr, if_pos ⟨List.mem_cons_of_mem i hjr.1, hjr.2⟩]
    · rw [if_neg hjr]
      by_cases hji : j = i ∧ j < releases.length
      · obtain ⟨hj, hlt⟩ := hji
        subst hj
        rw [if_pos ⟨List.mem_cons_self j rest, hlt⟩]
        have hjlen : j < st.1.length := by rw [hlen]; exact hlt
        obtain ⟨r, hrel⟩ : ∃ r, releases[j]? = some r :=
          ⟨releases[j], List.getElem?_eq_getElem hlt⟩
        unfold checkTask
        rw [List.getElem?_map, hrel]
        dsimp only
        cases hg : getReleaseComparer search r with
        | ok c => simp [lookupSlot, hg, List.getElem?_set_self hjlen]
        | error e => simp [lookupSlot, hg, List.getElem?_set_self hjlen]
      · have hcond : ¬(j ∈ i :: rest ∧ j < releases.length) := by
          rintro ⟨hmem, hlt⟩
          rcases List.mem_cons.mp hmem with h | h
          · exact hji ⟨h, hlt⟩
          · exact hjr ⟨h, hlt⟩
        rw [if_neg hcond]
        unfold checkTask
        cases hq : releases[i]? with
        | none => rfl
        | some r =>
          have hne : i ≠ j := by
            intro h
            by_cases hlt : j < releases.length
            · exact hji ⟨h.symm, hlt⟩
            · rw [h] at hq
              rw [List.getElem?_eq_none (Nat.le_of_not_lt hlt)] at hq
              cases hq
          dsimp only
          cases hg : getReleaseComparer search r with
          | ok c => simp [List.getElem?_set_ne hne]
          | error e => simp [List.getElem?_set_ne hne]

/-- C3: under every completion order of the lookup goroutines (any
permutation of the task indices), the slot list the engine produces has
exactly one entry per manifest release, in manifest order: slot i
always holds the outcome of looking up release i, because every task
writes only its own pre-sized slot and never appends. -/
theorem spec_c3_order_preserved
    (search : String → Except String (List HelmChartInfo))
    (releases : List Release) (order : List Nat)
    (hperm : order.Perm (List.range releases.length)) :
    (checkForUpdatesSched search releases order).1 =
        releases.map (lookupSlot search) ∧
      (checkForUpdatesSched search releases order).1.length =
        releases.length := by
  have hmain : (checkForUpdatesSched search releases order).1 =
      releases.map (lookupSlot search) := by
    apply List.ext_getElem?
    intro j
    unfold checkForUpdatesSched
    rw [checkSched_fst_getElem search releases order
      (List.replicate releases.length none, none)
      (List.length_replicate releases.length none) j]
    have hj : j ∈ order ↔ j < releases.length := by
      rw [hperm.mem_iff, List.mem_range]
    by_cases h : j < releases.length
    · rw [if_pos ⟨hj.mpr h, h⟩]
    · rw [if_neg (fun hc => h hc.2)]
      rw [List.getElem?_eq_none, List.getElem?_eq_none]
      · rw [List.length_map]
        exact Nat.le_of_not_lt h
      · rw [List.length_replicate]
        exact Nat.le_of_not_lt h
  refine ⟨hmain, ?_⟩
  rw [hmain, List.length_map]

/-- C3 witness: a one-release manifest under the only completion
order. -/
theorem spec_c3_order_preserved_witness :
    ([0] : List Nat).Perm (List.range [(⟨"a", "repo/a", "1.0.0", none⟩ : Release)].length) ∧
      ((checkForUpdatesSched (fun _ => .error "down")
          [⟨"a", "repo/a", "1.0.0", none⟩] [0]).1 =
        [(⟨"a", "repo/a", "1.0.0", none⟩ : Release)].map
          (lookupSlot (fun _ => .error "down")) ∧
      (checkForUpdatesSched (fun _ => .error "down")
          [⟨"a", "repo/a", "1.0.0", none⟩] [0]).1.length =
        [(⟨"a", "repo/a", "1.0.0", none⟩ : Release)].length) :=
  ⟨by simp [List.range_succ],
    spec_c3_order_preserved (fun _ => .error "down")
      [⟨"a", "repo/a", "1.0.0", none⟩] [0]
      (by simp [List.range_succ])⟩

example : hasNewer "v1.2.0" "1.3.0" = true := by decide
example : hasNewer "1.3.0" "v1.2.0" = false := by decide
example : hasNewer "not-a-version" "1.0.0" = false := by decide
example : hasNewer "main" "main" = false := by decide
example : hasNewer "1.2.0+111" "1.2.0+222" = false := by decide
example : hasNewer "1.0.0-alpha.1" "1.0.0-alpha.2" = true := by decide
example : hasNewer "1.0.0-alpha" "1.0.0" = true := by decide
example : parseSemver "1.2.0" = some ⟨1, 2, 0, [], []⟩ := by decide
